import Mathlib

/-
Verification development for the SpoolSense inventory backend.

The embedding models the inventory ledger (spool remaining weights,
hardware stock counts) as association lists from entity id to counter,
and each router operation as a pure function from the relevant stores
and request payload to an `Except` of the resulting stores and entity.
Raising an `HTTPException` before `db.commit()` discards the session's
uncommitted mutations, so an error result carries no store: this models
the source's transaction-rollback semantics.

Numeric fields typed `Float` in the source are modelled as `ℚ`
(exact arithmetic; the source performs no float-specific operations),
and integer stock counters as `ℤ`.  Display-only string fields that the
ledger logic never reads (color names, tracking ids, cost snapshots,
notes, timestamps) are omitted from the records.
-/

namespace SpoolSense

/-- Ledger store: association list from entity id to its row, mirroring a
database table keyed by primary key.  `lookupStore` returns the first
matching row, as `query.filter(id == sid).first()` does. -/
abbrev Store (α : Type) := List (Nat × α)

def lookupStore {α : Type} : Store α → Nat → Option α
  | [], _ => none
  | p :: rest, sid => if p.1 = sid then some p.2 else lookupStore rest sid

/-- Write back a mutated row: the session's identity map makes an in-place
mutation of a fetched object visible to every later query, which the
functional embedding renders as updating the stored value under that id. -/
def setStore {α : Type} : Store α → Nat → α → Store α
  | [], _, _ => []
  | p :: rest, sid, v => (if p.1 = sid then (p.1, v) else p) :: setStore rest sid v

/-- Fields of the `AppSettings` singleton row that the modelled operations
read, with the column defaults from `app/models/settings.py`. -/
structure AppSettings where
  currency_symbol : String := "$"
  electricity_rate_kwh : ℚ := 12 / 100
  printer_wattage : ℚ := 200
  hourly_rate : ℚ := 2
  machine_depreciation_rate : ℚ := 1 / 2
  profit_margin_percent : ℚ := 5
  fixed_fee_per_order : ℚ := 5
  enable_spool_negative_prevention : Bool := true
  minimum_spool_reserve_g : ℚ := 5
deriving DecidableEq, Repr

/-- Reserve used when the settings row is absent:
`settings.minimum_spool_reserve_g if settings else 5.0`. -/
def reserveOf : Option AppSettings → ℚ
  | some s => s.minimum_spool_reserve_g
  | none => 5

/-- Prevention toggle when the settings row is absent:
`settings.enable_spool_negative_prevention if settings else True`. -/
def preventOf : Option AppSettings → Bool
  | some s => s.enable_spool_negative_prevention
  | none => true

/-- Numeric and boolean fields of `SpoolShortage`
(`app/services/spool_validator.py`); the display-only name fields
(tracking id, color, filament type, manufacturer) are omitted. -/
structure SpoolShortage where
  spool_id : Nat
  current_weight_g : ℚ
  requested_weight_g : ℚ
  resulting_weight_g : ℚ
  shortage_g : ℚ
  within_reserve : Bool
deriving DecidableEq, Repr

structure SpoolValidationResult where
  is_valid : Bool
  shortages : List SpoolShortage
deriving DecidableEq, Repr

/-- Usable weight above the reserve: `remaining - reserve_g`
(local `usable_weight` in `validate_spool_inventory`). -/
def usable_weight (remaining reserve_g : ℚ) : ℚ := remaining - reserve_g

/-- Check value whose negativity triggers a shortage:
`usable_weight - grams_to_use` (local `resulting_weight`). -/
def resulting_check (remaining reserve_g requested : ℚ) : ℚ :=
  usable_weight remaining reserve_g - requested

/-- Embedding of `validate_spool_inventory` from
`app/services/spool_validator.py`.  Spools absent from the store are
skipped (`continue`); the per-usage loop appending to `shortages` is a
`filterMap`. -/
def validate_spool_inventory (settings : Option AppSettings) (spools : Store ℚ)
    (spool_usages : List (Nat × ℚ)) : SpoolValidationResult :=
  let reserve_g := reserveOf settings
  if !preventOf settings then ⟨true, []⟩
  else
    let shortages := spool_usages.filterMap (fun u =>
      match lookupStore spools u.1 with
      | none => none
      | some remaining =>
        if resulting_check remaining reserve_g u.2 < 0 then
          some ⟨u.1, remaining, u.2, remaining - u.2,
                max 0 (u.2 - remaining), decide (remaining ≥ u.2)⟩
        else none)
    ⟨shortages.isEmpty, shortages⟩

/-- Validation as the request layer observes it: a state transformer on the
spool ledger.  The source function only reads, so the store component is
returned unchanged. -/
def validate_spool_inventory_st (settings : Option AppSettings) (spools : Store ℚ)
    (spool_usages : List (Nat × ℚ)) : SpoolValidationResult × Store ℚ :=
  (validate_spool_inventory settings spools spool_usages, spools)

/-- Embedding of `_deduct_spool` (identical helper in
`routers/print_jobs.py` and `routers/orders.py`), returning the new
remaining weight. -/
def deduct_spool (remaining grams : ℚ) (prevent_negative : Bool) : ℚ :=
  if prevent_negative then max 0 (remaining - grams) else remaining - grams

/-- Fields of `CostBreakdown` (`app/schemas/cost_estimate.py`). -/
structure CostBreakdown where
  filament_cost : ℚ
  electricity_cost : ℚ
  time_cost : ℚ
  depreciation_cost : ℚ
  fixed_fee : ℚ
  subtotal : ℚ
  profit_margin_percent : ℚ
  profit : ℚ
  total : ℚ
  currency_symbol : String
deriving DecidableEq, Repr

/-- Round-half-to-even on rationals, the semantics of Python's builtin
`round` used by the cost calculator. -/
def round_half_even (x : ℚ) : ℤ :=
  let f := ⌊x⌋
  let r := x - f
  if r < 1 / 2 then f
  else if 1 / 2 < r then f + 1
  else if f % 2 = 0 then f else f + 1

/-- Round to 2 decimal places, the `round(x, 2)` applied to every money
output of the calculator. -/
def round2 (x : ℚ) : ℚ := (round_half_even (x * 100) : ℚ) / 100

/-- Embedding of `calculate_cost` from `app/services/cost_calculator.py`. -/
def calculate_cost (grams : ℚ) (print_time_minutes : ℤ) (cost_per_kg : ℚ)
    (settings : AppSettings) : CostBreakdown :=
  let filament_cost := (grams / 1000) * cost_per_kg
  let electricity_cost :=
    ((print_time_minutes : ℚ) / 60) * (settings.printer_wattage / 1000) *
      settings.electricity_rate_kwh
  let time_cost := ((print_time_minutes : ℚ) / 60) * settings.hourly_rate
  let depreciation_cost :=
    ((print_time_minutes : ℚ) / 60) * settings.machine_depreciation_rate
  let fixed_fee := settings.fixed_fee_per_order
  let subtotal := filament_cost + electricity_cost + time_cost + depreciation_cost + fixed_fee
  let profit := subtotal * (settings.profit_margin_percent / 100)
  let total := subtotal + profit
  { filament_cost := round2 filament_cost
    electricity_cost := round2 electricity_cost
    time_cost := round2 time_cost
    depreciation_cost := round2 depreciation_cost
    fixed_fee := round2 fixed_fee
    subtotal := round2 subtotal
    profit_margin_percent := settings.profit_margin_percent
    profit := round2 profit
    total := round2 total
    currency_symbol := settings.currency_symbol }

/-- Error classes surfaced by the routers (`HTTPException` status codes):
400 bad request / insufficient hardware stock, 404 not found,
409 conflict, and the 422 spool-shortage response carrying the
validation payload. -/
inductive ApiError where
  | badRequest
  | notFound
  | conflict
  | insufficientStock
  | spoolShortage (validation : SpoolValidationResult)
deriving DecidableEq, Repr

/-- One entry of the multi-color `spools` payload
(`PrintJobSpoolInput` in `app/schemas/print_job.py`); also stands for a
persisted `PrintJobSpool` row, which carries the same three fields. -/
structure PrintJobSpoolInput where
  spool_id : Nat
  filament_used_g : ℚ
  position : Nat
deriving DecidableEq, Repr

/-- Fields of a persisted `PrintJob` row that the ledger logic reads. -/
structure PrintJob where
  status : String
  spool_id : Option Nat := none
  filament_used_g : Option ℚ := none
  print_job_spools : List PrintJobSpoolInput := []
  order_id : Option Nat := none
deriving DecidableEq, Repr

/-- Deduction step of the per-entry creation loop: deduct only for
completed jobs, re-querying the spool each iteration. -/
def apply_completed_deduction (status : String) (prevent : Bool)
    (st : Store ℚ) (e : PrintJobSpoolInput) : Store ℚ :=
  if status = "completed" then
    match lookupStore st e.spool_id with
    | some w => setStore st e.spool_id (deduct_spool w e.filament_used_g prevent)
    | none => st
  else st

/-- Restoration of one `PrintJobSpool` row: its allocation is added back,
unclamped (`spool.remaining_weight_g += pjs.filament_used_g`). -/
def restore_step (st : Store ℚ) (e : PrintJobSpoolInput) : Store ℚ :=
  match lookupStore st e.spool_id with
  | some w => setStore st e.spool_id (w + e.filament_used_g)
  | none => st

/-- Restoration loop over the `PrintJobSpool` rows of a job. -/
def restore_spools (st : Store ℚ) (entries : List PrintJobSpoolInput) : Store ℚ :=
  entries.foldl restore_step st

/-- Embedding of `_create_single_spool_print_job` (`routers/print_jobs.py`).
Python truthiness of `data.filament_used_g and data.filament_used_g > 0`
reduces to the amount being present and positive. -/
def create_single_spool_print_job (settings : Option AppSettings) (spools : Store ℚ)
    (status : String) (data_spool_id : Nat) (data_filament_used_g : Option ℚ)
    (force : Bool) : Except ApiError (Store ℚ × PrintJob) :=
  match lookupStore spools data_spool_id with
  | none => .error .badRequest
  | some w =>
    let job : PrintJob :=
      { status := status, spool_id := some data_spool_id,
        filament_used_g := data_filament_used_g }
    match data_filament_used_g with
    | some g =>
      if status == "completed" && decide (0 < g) then
        let validation := validate_spool_inventory settings spools [(data_spool_id, g)]
        if !force && !validation.is_valid then .error (.spoolShortage validation)
        else
          .ok (setStore spools data_spool_id (deduct_spool w g (preventOf settings)), job)
      else .ok (spools, job)
    | none => .ok (spools, job)

/-- Embedding of `_create_multicolor_print_job` (`routers/print_jobs.py`):
check every spool exists, validate inventory for completed jobs unless
forced, then create the `PrintJobSpool` rows and deduct per entry. -/
def create_multicolor_print_job (settings : Option AppSettings) (spools : Store ℚ)
    (status : String) (data_spools : List PrintJobSpoolInput) (force : Bool) :
    Except ApiError (Store ℚ × PrintJob) :=
  if data_spools.any (fun e => (lookupStore spools e.spool_id).isNone) then
    .error .badRequest
  else
    let validation := validate_spool_inventory settings spools
      (data_spools.map fun e => (e.spool_id, e.filament_used_g))
    if status == "completed" && !force && !validation.is_valid then
      .error (.spoolShortage validation)
    else
      .ok (data_spools.foldl (apply_completed_deduction status (preventOf settings)) spools,
           { status := status, print_job_spools := data_spools })

/-- Dispatcher `create_print_job`: the multi-color path runs when the
`spools` payload is a non-empty list (Python truthiness), the legacy
path when `spool_id` is given, else 400. -/
def create_print_job (settings : Option AppSettings) (spools : Store ℚ)
    (data_spool_id : Option Nat) (data_filament_used_g : Option ℚ)
    (data_spools : Option (List PrintJobSpoolInput)) (status : String) (force : Bool) :
    Except ApiError (Store ℚ × PrintJob) :=
  match data_spools with
  | some (e :: rest) => create_multicolor_print_job settings spools status (e :: rest) force
  | _ =>
    match data_spool_id with
    | some sid => create_single_spool_print_job settings spools status sid data_filament_used_g force
    | none => .error .badRequest

/-- Update payload (`PrintJobUpdate` in `app/schemas/print_job.py`),
restricted to the fields the store-effect logic inspects; `none` means
the field was absent from the request (`exclude_unset`). -/
structure PrintJobUpdate where
  spools : Option (List PrintJobSpoolInput) := none
  filament_used_g : Option ℚ := none
  status : Option String := none
  spool_id : Option Nat := none
  force : Bool := false
deriving DecidableEq, Repr

/-- Field assignment tail of `update_print_job`: `setattr` for each
provided field, with the `PrintJobSpool` rows already replaced when the
`spools` payload was handled. -/
def apply_print_job_fields (job : PrintJob) (data : PrintJobUpdate)
    (pjs : List PrintJobSpoolInput) : PrintJob :=
  { status :=
      match data.status with
      | some s => s
      | none => job.status
    spool_id :=
      match data.spool_id with
      | some sid => some sid
      | none => job.spool_id
    filament_used_g :=
      match data.filament_used_g with
      | some g => some g
      | none => job.filament_used_g
    print_job_spools := pjs
    order_id := job.order_id }

/-- Tail of `update_print_job`: the `spool_id` existence check followed by
the field assignments and commit. -/
def finish_print_job_update (st : Store ℚ) (job : PrintJob) (data : PrintJobUpdate)
    (pjs : List PrintJobSpoolInput) : Except ApiError (Store ℚ × PrintJob) :=
  match data.spool_id with
  | some sid =>
    if (lookupStore st sid).isNone then .error .badRequest
    else .ok (st, apply_print_job_fields job data pjs)
  | none => .ok (st, apply_print_job_fields job data pjs)

/-- Embedding of `update_print_job` (`routers/print_jobs.py`).  A provided
`spools` list triggers restore-old / replace / validate / deduct-new;
otherwise a provided `filament_used_g` on a completed legacy job deducts
the net change; otherwise the spool ledger is untouched. -/
def update_print_job (settings : Option AppSettings) (spools : Store ℚ)
    (job : PrintJob) (data : PrintJobUpdate) : Except ApiError (Store ℚ × PrintJob) :=
  match data.spools with
  | some newSpools =>
    let st1 :=
      if job.status == "completed" then
        if !job.print_job_spools.isEmpty then restore_spools spools job.print_job_spools
        else
          match job.spool_id, job.filament_used_g with
          | some sid, some g =>
            if g ≠ 0 then
              match lookupStore spools sid with
              | some w => setStore spools sid (w + g)
              | none => spools
            else spools
          | _, _ => spools
      else spools
    if newSpools.any (fun e => (lookupStore st1 e.spool_id).isNone) then .error .badRequest
    else
      let new_status :=
        match data.status with
        | some s => s
        | none => job.status
      let validation := validate_spool_inventory settings st1
        (newSpools.map fun e => (e.spool_id, e.filament_used_g))
      if new_status == "completed" && !data.force && !validation.is_valid then
        .error (.spoolShortage validation)
      else
        finish_print_job_update
          (newSpools.foldl (apply_completed_deduction new_status (preventOf settings)) st1)
          job data newSpools
  | none =>
    if data.filament_used_g.isSome && job.status == "completed"
        && job.print_job_spools.isEmpty then
      match job.spool_id with
      | some jsid =>
        match lookupStore spools jsid with
        | some w =>
          let old_used := (job.filament_used_g).getD 0
          let new_used := (data.filament_used_g).getD 0
          let net_change := new_used - old_used
          let validation := validate_spool_inventory settings spools [(jsid, net_change)]
          if decide (0 < net_change) && !data.force && !validation.is_valid then
            .error (.spoolShortage validation)
          else
            finish_print_job_update
              (setStore spools jsid (deduct_spool w (new_used - old_used) (preventOf settings)))
              job data job.print_job_spools
        | none => finish_print_job_update spools job data job.print_job_spools
      | none => finish_print_job_update spools job data job.print_job_spools
    else finish_print_job_update spools job data job.print_job_spools

/-- Embedding of `delete_print_job` (`routers/print_jobs.py`):
blocked when a `ProductOnHand` references the job; a completed job has
its allocations restored (multi-color rows, else the legacy single
spool when its amount is positive) before the row is deleted. -/
def delete_print_job (spools : Store ℚ) (job : PrintJob) (linked_product : Bool) :
    Except ApiError (Store ℚ) :=
  if linked_product then .error .badRequest
  else if job.status == "completed" then
    if !job.print_job_spools.isEmpty then
      .ok (restore_spools spools job.print_job_spools)
    else
      match job.spool_id, job.filament_used_g with
      | some sid, some g =>
        if decide (0 < g) then
          match lookupStore spools sid with
          | some w => .ok (setStore spools sid (w + g))
          | none => .ok spools
        else .ok spools
      | _, _ => .ok spools
  else .ok spools

/-- One entry of the `hardware_items` payload (`OrderHardwareInput` in
`app/schemas/order.py`); the one-off name/cost text fields are omitted. -/
structure OrderHardwareInput where
  hardware_item_id : Option Nat := none
  quantity : ℤ := 1
  is_one_off : Bool := false
deriving DecidableEq, Repr

/-- Fields of a persisted `OrderHardware` line that the stock logic reads
(cost/name snapshot columns omitted). -/
structure OrderHardware where
  hardware_item_id : Option Nat
  quantity : ℤ
  is_one_off : Bool
deriving DecidableEq, Repr

/-- Fields of a persisted `Order` row that the hardware-stock logic reads
(spool snapshot lines never touch the ledger and are omitted). -/
structure Order where
  status : String
  order_hardware : List OrderHardware
deriving DecidableEq, Repr

/-- Build the persisted line from a payload entry: one-off lines store no
`hardware_item_id`. -/
def toOrderHardware (h : OrderHardwareInput) : OrderHardware :=
  { hardware_item_id := if h.is_one_off then none else h.hardware_item_id
    quantity := h.quantity
    is_one_off := h.is_one_off }

/-- Existence check for the non-one-off entries of a `hardware_items`
payload (each is fetched and 400 is raised when absent). -/
def someHardwareMissing (hw : Store ℤ) (items : List OrderHardwareInput) : Bool :=
  items.any (fun h =>
    !h.is_one_off &&
      (match h.hardware_item_id with
       | some hid => (lookupStore hw hid).isNone
       | none => true))

/-- Restoration loop shared by `delete_order`, the replacement block and
the `needs_restore` block of `update_order`: each inventory line adds its
quantity back (`hardware_item.quantity_in_stock += oh.quantity`),
skipping one-off lines. -/
def restore_order_hardware (hw : Store ℤ) (lines : List OrderHardware) : Store ℤ :=
  lines.foldl (fun st oh =>
    if oh.is_one_off then st
    else
      match oh.hardware_item_id with
      | some hid =>
        match lookupStore st hid with
        | some q => setStore st hid (q + oh.quantity)
        | none => st
      | none => st) hw

/-- Deduction loop of the `needs_deduct` block: raises 400 on the first
line whose stock is below its quantity (the rollback discards the
partial deductions), otherwise subtracts each quantity. -/
def deduct_order_hardware : Store ℤ → List OrderHardware → Except ApiError (Store ℤ)
  | hw, [] => .ok hw
  | hw, oh :: rest =>
    if oh.is_one_off then deduct_order_hardware hw rest
    else
      match oh.hardware_item_id with
      | some hid =>
        match lookupStore hw hid with
        | some q =>
          if q < oh.quantity then .error .insufficientStock
          else deduct_order_hardware (setStore hw hid (q - oh.quantity)) rest
        | none => deduct_order_hardware hw rest
      | none => deduct_order_hardware hw rest

/-- Embedding of `create_order` (`routers/orders.py`), hardware part:
non-one-off items must exist, lines are snapshotted, and hardware stock
is NOT decremented on creation (source comment: it is decremented when
the order status changes to "finished"). -/
def create_order (hw : Store ℤ) (status : String)
    (hardware_items : List OrderHardwareInput) : Except ApiError (Store ℤ × Order) :=
  if someHardwareMissing hw hardware_items then .error .badRequest
  else .ok (hw, { status := status, order_hardware := hardware_items.map toOrderHardware })

/-- Embedding of `delete_order` (`routers/orders.py`): hardware stock is
restored only when the order row's status is "finished". -/
def delete_order (hw : Store ℤ) (order : Order) : Store ℤ :=
  if order.status == "finished" then restore_order_hardware hw order.order_hardware
  else hw

/-- Deduct when the status just changed TO "finished", or stays "finished"
while the hardware lines were replaced in this update
(`routers/orders.py`, line 360). -/
def needs_deduct (old_status new_status : String) (hardware_replaced : Bool) : Bool :=
  new_status == "finished" && (old_status != "finished" || hardware_replaced)

/-- Restore when the status changed FROM "finished" and the hardware was
not already restored by the replacement block (line 364). -/
def needs_restore (old_status new_status : String) (hardware_replaced : Bool) : Bool :=
  old_status == "finished" && new_status != "finished" && !hardware_replaced

/-- Update payload (`OrderUpdate` in `app/schemas/order.py`), restricted
to the fields the stock logic inspects; `hardware_items = none` means the
field was absent (an explicit null is popped to `None` and skips the
replacement block the same way). -/
structure OrderUpdate where
  status : Option String := none
  hardware_items : Option (List OrderHardwareInput) := none
deriving DecidableEq, Repr

/-- Embedding of `update_order` (`routers/orders.py`): apply field
updates, optionally replace the hardware lines (restoring the old ones
first when the order was "finished"), then run the
`needs_deduct` / `needs_restore` effect. -/
def update_order (hw : Store ℤ) (order : Order) (data : OrderUpdate) :
    Except ApiError (Store ℤ × Order) :=
  let old_status := order.status
  let new_status :=
    match data.status with
    | some s => s
    | none => order.status
  let repl : Except ApiError (Store ℤ × List OrderHardware) :=
    match data.hardware_items with
    | some new_items =>
      let st := if old_status == "finished" then restore_order_hardware hw order.order_hardware else hw
      if someHardwareMissing st new_items then .error .badRequest
      else .ok (st, new_items.map toOrderHardware)
    | none => .ok (hw, order.order_hardware)
  match repl with
  | .error e => .error e
  | .ok (st1, lines) =>
    let hardware_replaced := data.hardware_items.isSome
    if needs_deduct old_status new_status hardware_replaced then
      match deduct_order_hardware st1 lines with
      | .error e => .error e
      | .ok st2 => .ok (st2, { status := new_status, order_hardware := lines })
    else if needs_restore old_status new_status hardware_replaced then
      .ok (restore_order_hardware st1 lines, { status := new_status, order_hardware := lines })
    else .ok (st1, { status := new_status, order_hardware := lines })

/-- One hardware requirement of a `Project` template
(`ProjectHardware`: hardware item id and quantity needed). -/
structure ProjectHardwareLine where
  hardware_item_id : Nat
  quantity : ℤ
deriving DecidableEq, Repr

/-- Fields of a persisted `ProductOnHand` row that the modelled logic
reads. -/
structure ProductOnHand where
  status : String
  project_id : Option Nat := none
  print_job_id : Nat
  location : Option String := none
deriving DecidableEq, Repr

/-- Status/location validation tail of `create_product_on_hand`, after
the print job and project have been resolved and `has_hardware`
computed (`project.hardware and len(project.hardware) > 0`). -/
def finish_create_product (hw : Store ℤ) (has_hardware : Bool)
    (data_project_id : Option Nat) (data_print_job_id : Nat) (data_status : String)
    (data_location : Option String) : Except ApiError (Store ℤ × ProductOnHand) :=
  let product : ProductOnHand :=
    { status := data_status, project_id := data_project_id,
      print_job_id := data_print_job_id, location := data_location }
  if data_status == "completed" && data_location.isNone then .error .badRequest
  else if has_hardware then .ok (hw, product)
  else if data_status != "completed" then .error .badRequest
  else if data_location.isNone then .error .badRequest
  else .ok (hw, product)

/-- Embedding of `create_product_on_hand` (`routers/product_on_hand.py`):
the print job must exist and be completed, a given project must exist,
and the status/location rules hold — but no hardware stock is touched. -/
def create_product_on_hand (hw : Store ℤ) (printJobs : Store PrintJob)
    (projects : Store (List ProjectHardwareLine)) (data_project_id : Option Nat)
    (data_print_job_id : Nat) (data_status : String) (data_location : Option String) :
    Except ApiError (Store ℤ × ProductOnHand) :=
  match lookupStore printJobs data_print_job_id with
  | none => .error .notFound
  | some pj =>
    if pj.status != "completed" then .error .badRequest
    else
      match data_project_id with
      | some pid =>
        match lookupStore projects pid with
        | none => .error .notFound
        | some hwlist =>
          finish_create_product hw (!hwlist.isEmpty) data_project_id data_print_job_id
            data_status data_location
      | none =>
        finish_create_product hw false data_project_id data_print_job_id
          data_status data_location

/-- Embedding of `update_product_on_hand` (`routers/product_on_hand.py`):
only the printed-to-completed transition of a product with a project
deducts the project's hardware, after first checking every requirement
against stock (raising 400 before any deduction on a shortage). -/
def update_product_on_hand (hw : Store ℤ) (projects : Store (List ProjectHardwareLine))
    (product : ProductOnHand) (data_status : Option String) :
    Except ApiError (Store ℤ × ProductOnHand) :=
  let was_printed := product.status == "printed"
  let will_be_completed :=
    match data_status with
    | some s => s == "completed"
    | none => product.status == "completed"
  let product' : ProductOnHand :=
    { product with status :=
        match data_status with
        | some s => s
        | none => product.status }
  if was_printed && will_be_completed && product.project_id.isSome then
    let hwlist :=
      match product.project_id with
      | some pid => (lookupStore projects pid).getD []
      | none => []
    if hwlist.isEmpty then .ok (hw, product')
    else if hwlist.any (fun ph =>
        match lookupStore hw ph.hardware_item_id with
        | some q => decide (q < ph.quantity)
        | none => false) then .error .insufficientStock
    else
      .ok (hwlist.foldl (fun st ph =>
        match lookupStore st ph.hardware_item_id with
        | some q => setStore st ph.hardware_item_id (q - ph.quantity)
        | none => st) hw, product')
  else .ok (hw, product')

/-- Embedding of `convert_to_order` (`routers/product_on_hand.py`): a
print job already linked to an order is a 409 conflict (nothing created
or deleted); otherwise a "sold" order is created with the project's
hardware copied as snapshot lines, and stock is validated and deducted
only when the product is not already "completed" (a prior
printed-to-completed transition would have deducted it). -/
def convert_to_order (hw : Store ℤ) (printJobs : Store PrintJob)
    (projects : Store (List ProjectHardwareLine)) (product : ProductOnHand) :
    Except ApiError (Store ℤ × Order) :=
  match lookupStore printJobs product.print_job_id with
  | none => .error .badRequest
  | some pj =>
    if pj.order_id.isSome then .error .conflict
    else
      let projHW :=
        match product.project_id with
        | some pid => (lookupStore projects pid).getD []
        | none => []
      let order : Order :=
        { status := "sold"
          order_hardware := projHW.map (fun ph =>
            { hardware_item_id := some ph.hardware_item_id,
              quantity := ph.quantity, is_one_off := false }) }
      if projHW.isEmpty then .ok (hw, order)
      else if product.status != "completed" then
        if projHW.any (fun ph =>
            match lookupStore hw ph.hardware_item_id with
            | some q => decide (q < ph.quantity)
            | none => false) then .error .insufficientStock
        else
          .ok (projHW.foldl (fun st ph =>
            match lookupStore st ph.hardware_item_id with
            | some q => setStore st ph.hardware_item_id (q - ph.quantity)
            | none => st) hw, order)
      else .ok (hw, order)

/-! Helper lemmas about the ledger stores and the deduction/restoration
loops, shared by the claim theorems below. -/

theorem lookupStore_setStore_self {α : Type} (st : Store α) (sid : Nat) (v w : α)
    (h : lookupStore st sid = some w) : lookupStore (setStore st sid v) sid = some v := by
  induction st with
  | nil => simp [lookupStore] at h
  | cons p rest ih =>
    rw [setStore]
    by_cases hp : p.1 = sid
    · rw [if_pos hp, lookupStore]
      simp [hp]
    · rw [if_neg hp, lookupStore, if_neg hp]
      rw [lookupStore, if_neg hp] at h
      exact ih h

theorem lookupStore_setStore_ne {α : Type} (st : Store α) (sid sid' : Nat) (v : α)
    (h : sid' ≠ sid) : lookupStore (setStore st sid v) sid' = lookupStore st sid' := by
  induction st with
  | nil => simp [setStore, lookupStore]
  | cons p rest ih =>
    rw [setStore]
    by_cases hp : p.1 = sid
    · rw [if_pos hp, lookupStore]
      have hne : ¬(sid = sid') := fun hEq => h hEq.symm
      rw [lookupStore, if_neg (by simpa [hp] using hne)]
      simpa [hp, hne] using ih
    · rw [if_neg hp, lookupStore, lookupStore, ih]

theorem apply_completed_deduction_lookup_ne (s : String) (p : Bool) (st : Store ℚ)
    (e : PrintJobSpoolInput) (sid : Nat) (h : sid ≠ e.spool_id) :
    lookupStore (apply_completed_deduction s p st e) sid = lookupStore st sid := by
  unfold apply_completed_deduction
  by_cases hs : s = "completed"
  · rw [if_pos hs]
    cases hl : lookupStore st e.spool_id with
    | none => rfl
    | some w => exact lookupStore_setStore_ne _ _ _ _ h
  · rw [if_neg hs]

theorem restore_step_lookup_ne (st : Store ℚ) (e : PrintJobSpoolInput) (sid : Nat)
    (h : sid ≠ e.spool_id) :
    lookupStore (restore_step st e) sid = lookupStore st sid := by
  unfold restore_step
  cases hl : lookupStore st e.spool_id with
  | none => rfl
  | some w => exact lookupStore_setStore_ne _ _ _ _ h

theorem foldl_lookup_frame (f : Store ℚ → PrintJobSpoolInput → Store ℚ)
    (hf : ∀ st e sid, sid ≠ e.spool_id → lookupStore (f st e) sid = lookupStore st sid)
    (entries : List PrintJobSpoolInput) (st : Store ℚ) (sid : Nat)
    (hsid : sid ∉ entries.map PrintJobSpoolInput.spool_id) :
    lookupStore (entries.foldl f st) sid = lookupStore st sid := by
  induction entries generalizing st with
  | nil => rfl
  | cons a rest ih =>
    simp only [List.map_cons, List.mem_cons, not_or] at hsid
    rw [List.foldl_cons, ih _ hsid.2, hf _ _ _ hsid.1]

theorem foldl_deduct_lookup (p : Bool) (entries : List PrintJobSpoolInput) (st : Store ℚ)
    (e : PrintJobSpoolInput) (he : e ∈ entries)
    (hnd : (entries.map PrintJobSpoolInput.spool_id).Nodup) (w : ℚ)
    (hw : lookupStore st e.spool_id = some w) :
    lookupStore (entries.foldl (apply_completed_deduction "completed" p) st) e.spool_id =
      some (deduct_spool w e.filament_used_g p) := by
  induction entries generalizing st with
  | nil => cases he
  | cons a rest ih =>
    simp only [List.map_cons, List.nodup_cons] at hnd
    rw [List.foldl_cons]
    rcases List.mem_cons.mp he with rfl | hmem
    · have h1 : lookupStore (apply_completed_deduction "completed" p st e) e.spool_id =
          some (deduct_spool w e.filament_used_g p) := by
        unfold apply_completed_deduction
        rw [if_pos rfl, hw]
        exact lookupStore_setStore_self _ _ _ _ hw
      rw [foldl_lookup_frame _ (apply_completed_deduction_lookup_ne "completed" p) rest _ _ hnd.1,
        h1]
    · have hne : e.spool_id ≠ a.spool_id := by
        intro hEq
        exact hnd.1 (hEq ▸ List.mem_map_of_mem PrintJobSpoolInput.spool_id hmem)
      have h2 : lookupStore (apply_completed_deduction "completed" p st a) e.spool_id = some w := by
        rw [apply_completed_deduction_lookup_ne "completed" p st a _ hne]
        exact hw
      exact ih _ hmem hnd.2 h2

theorem foldl_restore_lookup (entries : List PrintJobSpoolInput) (st : Store ℚ)
    (e : PrintJobSpoolInput) (he : e ∈ entries)
    (hnd : (entries.map PrintJobSpoolInput.spool_id).Nodup) (w : ℚ)
    (hw : lookupStore st e.spool_id = some w) :
    lookupStore (restore_spools st entries) e.spool_id = some (w + e.filament_used_g) := by
  unfold restore_spools
  induction entries generalizing st with
  | nil => cases he
  | cons a rest ih =>
    simp only [List.map_cons, List.nodup_cons] at hnd
    rw [List.foldl_cons]
    rcases List.mem_cons.mp he with rfl | hmem
    · have h1 : lookupStore (restore_step st e) e.spool_id = some (w + e.filament_used_g) := by
        unfold restore_step
        rw [hw]
        exact lookupStore_setStore_self _ _ _ _ hw
      rw [foldl_lookup_frame _ restore_step_lookup_ne rest _ _ hnd.1, h1]
    · have hne : e.spool_id ≠ a.spool_id := by
        intro hEq
        exact hnd.1 (hEq ▸ List.mem_map_of_mem PrintJobSpoolInput.spool_id hmem)
      have h2 : lookupStore (restore_step st a) e.spool_id = some w := by
        rw [restore_step_lookup_ne st a _ hne]
        exact hw
      exact ih _ hmem hnd.2 h2

theorem foldl_deduct_noncompleted (s : String) (p : Bool) (hs : s ≠ "completed")
    (entries : List PrintJobSpoolInput) (st : Store ℚ) :
    entries.foldl (apply_completed_deduction s p) st = st := by
  induction entries generalizing st with
  | nil => rfl
  | cons a rest ih =>
    rw [List.foldl_cons]
    have hstep : apply_completed_deduction s p st a = st := by
      unfold apply_completed_deduction
      simp [hs]
    rw [hstep, ih]

/-- C1, counterexample: `create_order` never touches hardware stock, so
creating an order with status "finished" carrying one line of quantity 3
against an item with stock 10 leaves the stock at 10, not 7; and
`delete_order` then restores 3 for the "finished" order, raising the
stock to 13, not back to 10. -/
theorem C1_counterexample_create_finished_leaves_stock :
    (create_order [(1, (10 : ℤ))] "finished" [{ hardware_item_id := some 1, quantity := 3 }] =
      .ok ([(1, 10)],
        { status := "finished",
          order_hardware := [{ hardware_item_id := some 1, quantity := 3, is_one_off := false }] })) ∧
    ((10 : ℤ) ≠ 7) ∧
    (delete_order [(1, (10 : ℤ))]
        { status := "finished",
          order_hardware := [{ hardware_item_id := some 1, quantity := 3, is_one_off := false }] } =
      [(1, 13)]) ∧
    ((13 : ℤ) ≠ 10) := by
  refine ⟨rfl, by decide, rfl, by decide⟩

/-- C1, amended: creating an Order with status "finished" carrying one
hardware line of quantity 3 against a HardwareItem whose stock is 10
leaves the stock at 10 (creation never deducts hardware stock), and
deleting that order afterwards restores its line and leaves the stock at
13 (deletion of a "finished" order always adds the quantities back). -/
theorem C1_order_create_and_delete_stock :
    ((create_order [(1, (10 : ℤ))] "finished"
        [{ hardware_item_id := some 1, quantity := 3 }]).map (fun r => lookupStore r.1 1) =
      .ok (some 10)) ∧
    (lookupStore (delete_order [(1, (10 : ℤ))]
        { status := "finished",
          order_hardware := [{ hardware_item_id := some 1, quantity := 3, is_one_off := false }] })
      1 = some 13) := by
  refine ⟨rfl, rfl⟩

/-- C2, counterexample: for reserve 5, remaining 10, requested 6, the
emitted shortage's `resulting_weight_g` field is
`remaining - requested = 4`, not the −1 the claim attributes to it. -/
theorem C2_counterexample_resulting_weight :
    ((validate_spool_inventory (some {}) [(1, (10 : ℚ))] [(1, 6)]).shortages.map
      SpoolShortage.resulting_weight_g = [4]) ∧ ((4 : ℚ) ≠ -1) := by
  refine ⟨?_, by norm_num⟩
  norm_num [validate_spool_inventory, reserveOf, preventOf, lookupStore, resulting_check,
    usable_weight, List.filterMap_cons, List.filterMap_nil]

/-- C2, amended: with prevention enabled and reserve 5, validating the
single pair (spool, requested 6) against a spool with remaining 10
returns invalid with exactly one shortage; the usable weight
`remaining - reserve` is 5 and the check value `usable - requested` that
triggers the shortage is −1, while the shortage record carries
`resulting_weight_g = remaining - requested = 4`,
`shortage_g = max 0 (requested - remaining) = 0`, and
`within_reserve = true` (because remaining 10 ≥ requested 6). -/
theorem C2_reserve_shortage_detail :
    (validate_spool_inventory (some {}) [(1, (10 : ℚ))] [(1, 6)] =
      { is_valid := false,
        shortages := [{ spool_id := 1, current_weight_g := 10, requested_weight_g := 6,
                        resulting_weight_g := 4, shortage_g := 0, within_reserve := true }] }) ∧
    (usable_weight 10 (reserveOf (some {})) = 5) ∧
    (resulting_check 10 (reserveOf (some {})) 6 = -1) := by
  refine ⟨?_, by norm_num [usable_weight, reserveOf],
    by norm_num [resulting_check, usable_weight, reserveOf]⟩
  norm_num [validate_spool_inventory, reserveOf, preventOf, lookupStore, resulting_check,
    usable_weight, List.filterMap_cons, List.filterMap_nil]

/-- C8: `validate_spool_inventory` is read-only on the ledger, and each
(spool, amount) pair is judged against the spool's currently stored
value independently of the other pairs of the batch: when
reserve + a ≤ R < reserve + 2a, the batch [(spool, a), (spool, a)] is
reported valid even though the two pairs together exceed the usable
weight R − reserve. -/
theorem C8_validation_read_only_and_independent (settings : Option AppSettings)
    (spools : Store ℚ) (us : List (Nat × ℚ)) (sid : Nat) (R a : ℚ) :
    ((validate_spool_inventory_st settings spools us).2 = spools) ∧
    (preventOf settings = true → lookupStore spools sid = some R →
      reserveOf settings + a ≤ R → R < reserveOf settings + 2 * a →
      (validate_spool_inventory settings spools [(sid, a), (sid, a)]).is_valid = true ∧
      R - reserveOf settings < a + a) := by
  refine ⟨rfl, fun hp hl h1 h2 => ?_⟩
  have hnotneg : ¬(resulting_check R (reserveOf settings) a < 0) := by
    unfold resulting_check usable_weight
    linarith
  constructor
  · unfold validate_spool_inventory
    simp [hp, hl, hnotneg]
  · linarith

/-- C8 witness: reserve 5 (default settings), remaining 10, amount 3. -/
theorem C8_witness :
    (preventOf (some {}) = true) ∧ (lookupStore [(1, (10 : ℚ))] 1 = some 10) ∧
    (reserveOf (some {}) + 3 ≤ 10) ∧ ((10 : ℚ) < reserveOf (some {}) + 2 * 3) ∧
    ((validate_spool_inventory (some {}) [(1, (10 : ℚ))] [(1, 3), (1, 3)]).is_valid = true ∧
      (10 : ℚ) - reserveOf (some {}) < 3 + 3) :=
  ⟨rfl, rfl, by norm_num [reserveOf], by norm_num [reserveOf],
    (C8_validation_read_only_and_independent (some {}) [(1, (10 : ℚ))] [] 1 10 3).2
      rfl rfl (by norm_num [reserveOf]) (by norm_num [reserveOf])⟩

/-- C9: the cost calculator is a pure function whose money outputs are
the stated formulas rounded to 2 decimals
(`material_cost` is the source's `filament_cost`); in particular
100 g at 20 per kg gives a material cost of 2.00, and 60 minutes at the
default 200 W and 0.12 per kWh gives an electricity cost of 0.02,
rounded from the raw 0.024. -/
theorem C9_cost_calculator (grams : ℚ) (m : ℤ) (cost_per_kg : ℚ) (s : AppSettings) :
    ((calculate_cost grams m cost_per_kg s).filament_cost =
      round2 ((grams / 1000) * cost_per_kg)) ∧
    ((calculate_cost grams m cost_per_kg s).electricity_cost =
      round2 (((m : ℚ) / 60) * (s.printer_wattage / 1000) * s.electricity_rate_kwh)) ∧
    ((calculate_cost grams m cost_per_kg s).time_cost =
      round2 (((m : ℚ) / 60) * s.hourly_rate)) ∧
    ((calculate_cost grams m cost_per_kg s).depreciation_cost =
      round2 (((m : ℚ) / 60) * s.machine_depreciation_rate)) ∧
    ((calculate_cost grams m cost_per_kg s).subtotal =
      round2 ((grams / 1000) * cost_per_kg +
        ((m : ℚ) / 60) * (s.printer_wattage / 1000) * s.electricity_rate_kwh +
        ((m : ℚ) / 60) * s.hourly_rate + ((m : ℚ) / 60) * s.machine_depreciation_rate +
        s.fixed_fee_per_order)) ∧
    ((calculate_cost grams m cost_per_kg s).profit =
      round2 (((grams / 1000) * cost_per_kg +
        ((m : ℚ) / 60) * (s.printer_wattage / 1000) * s.electricity_rate_kwh +
        ((m : ℚ) / 60) * s.hourly_rate + ((m : ℚ) / 60) * s.machine_depreciation_rate +
        s.fixed_fee_per_order) * (s.profit_margin_percent / 100))) ∧
    ((calculate_cost grams m cost_per_kg s).total =
      round2 (((grams / 1000) * cost_per_kg +
        ((m : ℚ) / 60) * (s.printer_wattage / 1000) * s.electricity_rate_kwh +
        ((m : ℚ) / 60) * s.hourly_rate + ((m : ℚ) / 60) * s.machine_depreciation_rate +
        s.fixed_fee_per_order) +
        ((grams / 1000) * cost_per_kg +
        ((m : ℚ) / 60) * (s.printer_wattage / 1000) * s.electricity_rate_kwh +
        ((m : ℚ) / 60) * s.hourly_rate + ((m : ℚ) / 60) * s.machine_depreciation_rate +
        s.fixed_fee_per_order) * (s.profit_margin_percent / 100))) ∧
    ((calculate_cost 100 0 20 {}).filament_cost = 2) ∧
    ((calculate_cost 0 60 0 {}).electricity_cost = 1 / 50) ∧
    (((60 : ℚ) / 60) * ((200 : ℚ) / 1000) * (12 / 100) = 24 / 1000) ∧
    (round2 (24 / 1000) = 1 / 50) := by
  refine ⟨rfl, rfl, rfl, rfl, rfl, rfl, rfl,
    by norm_num [calculate_cost, round2, round_half_even],
    by norm_num [calculate_cost, round2, round_half_even],
    by norm_num, by norm_num [round2, round_half_even]⟩

/-- C10: a print-job update whose payload contains neither a spools list
nor a filament_used_g value leaves the spool ledger untouched, whatever
else it changes (in particular any pure status change between
"completed", "failed" and "cancelled"). -/
theorem C10_update_without_spool_fields_is_frame (settings : Option AppSettings)
    (spools : Store ℚ) (job : PrintJob) (data : PrintJobUpdate) (st' : Store ℚ)
    (j' : PrintJob) (hsp : data.spools = none) (hf : data.filament_used_g = none)
    (h : update_print_job settings spools job data = .ok (st', j')) : st' = spools := by
  unfold update_print_job at h
  rw [hsp, hf] at h
  simp only [Option.isSome_none, Bool.false_and, Bool.false_eq_true, if_false] at h
  unfold finish_print_job_update at h
  split at h
  · split at h
    · exact Except.noConfusion h
    · injection h with h2
      exact (congrArg Prod.fst h2).symm
  · injection h with h2
    exact (congrArg Prod.fst h2).symm

/-- C10 witness: marking a completed legacy job "failed" without touching
the spool fields leaves the ledger unchanged. -/
theorem C10_witness : ([(1, (5 : ℚ))] : Store ℚ) = [(1, (5 : ℚ))] :=
  C10_update_without_spool_fields_is_frame none [(1, (5 : ℚ))]
    { status := "completed", spool_id := some 1, filament_used_g := some 2 }
    { status := some "failed" } [(1, (5 : ℚ))]
    { status := "failed", spool_id := some 1, filament_used_g := some 2 }
    rfl rfl (by rfl)

/-- C3: whenever creating a PrintJob with status "completed" succeeds
(multi-spool or legacy single-spool form), each allocated spool's
remaining weight afterwards is max(0, before − amount) when
negative-prevention is enabled and before − amount (possibly negative)
when it is disabled; a creation with any other status ("failed",
"cancelled") leaves the ledger unchanged. -/
theorem C3_completed_creation_deducts (settings : Option AppSettings) (store : Store ℚ)
    (status : String) (force : Bool) :
    (∀ entries store' job,
      create_multicolor_print_job settings store status entries force = .ok (store', job) →
      (status = "completed" → (entries.map PrintJobSpoolInput.spool_id).Nodup →
        ∀ e ∈ entries, ∀ w, lookupStore store e.spool_id = some w →
          lookupStore store' e.spool_id =
            some (if preventOf settings then max 0 (w - e.filament_used_g)
                  else w - e.filament_used_g)) ∧
      (status ≠ "completed" → store' = store)) ∧
    (∀ sid g store' job,
      create_single_spool_print_job settings store status sid (some g) force = .ok (store', job) →
      (status = "completed" → 0 < g → ∀ w, lookupStore store sid = some w →
        lookupStore store' sid =
          some (if preventOf settings then max 0 (w - g) else w - g)) ∧
      (status ≠ "completed" → store' = store)) := by
  constructor
  · intro entries store' job h
    unfold create_multicolor_print_job at h
    split at h
    · exact Except.noConfusion h
    · dsimp only at h
      split at h
      · exact Except.noConfusion h
      · injection h with h2
        have hst : entries.foldl (apply_completed_deduction status (preventOf settings)) store
            = store' := congrArg Prod.fst h2
        constructor
        · intro hc hnd e he w hw
          subst hc
          rw [← hst]
          simpa [deduct_spool] using
            foldl_deduct_lookup (preventOf settings) entries store e he hnd w hw
        · intro hnc
          rw [← hst, foldl_deduct_noncompleted status (preventOf settings) hnc]
  · intro sid g store' job h
    unfold create_single_spool_print_job at h
    split at h
    · exact Except.noConfusion h
    · rename_i w0 hw0
      dsimp only at h
      by_cases hcond : (status == "completed" && decide (0 < g)) = true
      · rw [if_pos hcond] at h
        split at h
        · exact Except.noConfusion h
        · injection h with h2
          have hst : setStore store sid (deduct_spool w0 g (preventOf settings)) = store' :=
            congrArg Prod.fst h2
          have hc : status = "completed" := by
            have := (Bool.and_eq_true _ _).mp hcond
            exact beq_iff_eq.mp this.1
          constructor
          · intro _ _ w hw
            have hww : w0 = w := by
              rw [hw0] at hw
              exact Option.some.inj hw
            subst hww
            rw [← hst]
            simpa [deduct_spool] using lookupStore_setStore_self store sid _ _ hw0
          · intro hnc
            exact absurd hc hnc
      · rw [if_neg hcond] at h
        injection h with h2
        have hst : store = store' := congrArg Prod.fst h2
        constructor
        · intro hc hg w _
          exact absurd (by simp [hc, hg]) hcond
        · intro _
          exact hst.symm

/-- C3 witness: completed creations at stock 100 with prevention enabled
(default settings): a multi-spool entry of 30 g leaves 70 g, and a legacy
single-spool job of 30 g leaves 70 g. -/
theorem C3_witness :
    (lookupStore [(1, (70 : ℚ))] 1 =
      some (if preventOf (some {}) then max 0 ((100 : ℚ) - 30) else (100 : ℚ) - 30)) ∧
    (lookupStore [(1, (70 : ℚ))] 1 =
      some (if preventOf (some {}) then max 0 ((100 : ℚ) - 30) else (100 : ℚ) - 30)) :=
  ⟨((C3_completed_creation_deducts (some {}) [(1, (100 : ℚ))] "completed" false).1
      [⟨1, 30, 1⟩] [(1, (70 : ℚ))] { status := "completed", print_job_spools := [⟨1, 30, 1⟩] }
      (by norm_num [create_multicolor_print_job, validate_spool_inventory, reserveOf, preventOf,
        lookupStore, setStore, resulting_check, usable_weight, apply_completed_deduction,
        deduct_spool, List.filterMap_cons, List.filterMap_nil])).1
    rfl (by decide) ⟨1, 30, 1⟩ (by decide) 100 rfl,
   ((C3_completed_creation_deducts (some {}) [(1, (100 : ℚ))] "completed" false).2
      1 30 [(1, (70 : ℚ))]
      { status := "completed", spool_id := some 1, filament_used_g := some 30 }
      (by norm_num [create_single_spool_print_job, validate_spool_inventory, reserveOf, preventOf,
        lookupStore, setStore, resulting_check, usable_weight, deduct_spool,
        List.filterMap_cons, List.filterMap_nil])).1
    rfl (by norm_num) 100 rfl⟩

/-- C4: deleting a completed PrintJob restores, unclamped and exactly
once, every allocation's amount to its spool (multi-color rows, or the
legacy single allocation), regardless of the prevention setting; hence
creating a completed single-spool job of G grams and then deleting it
returns the spool exactly to its pre-creation weight, provided under
prevention that G was at most the prior remaining weight. -/
theorem C4_delete_restores_allocations (settings : Option AppSettings) :
    (∀ spools job store', job.status = "completed" → job.print_job_spools ≠ [] →
      delete_print_job spools job false = .ok store' →
      (job.print_job_spools.map PrintJobSpoolInput.spool_id).Nodup →
      ∀ e ∈ job.print_job_spools, ∀ w, lookupStore spools e.spool_id = some w →
        lookupStore store' e.spool_id = some (w + e.filament_used_g)) ∧
    (∀ spools job store' sid g w, job.status = "completed" → job.print_job_spools = [] →
      job.spool_id = some sid → job.filament_used_g = some g → 0 < g →
      lookupStore spools sid = some w →
      delete_print_job spools job false = .ok store' →
      lookupStore store' sid = some (w + g)) ∧
    (∀ spools sid g w force store₁ job store₂,
      lookupStore spools sid = some w → 0 < g →
      (preventOf settings = true → g ≤ w) →
      create_single_spool_print_job settings spools "completed" sid (some g) force =
        .ok (store₁, job) →
      delete_print_job store₁ job false = .ok store₂ →
      lookupStore store₂ sid = some w) := by
  refine ⟨?_, ?_, ?_⟩
  · intro spools job store' hc hne h hnd e he w hw
    unfold delete_print_job at h
    rw [if_neg (by simp)] at h
    rw [if_pos (by simp [hc])] at h
    rw [if_pos (by simpa using hne)] at h
    injection h with h2
    rw [← h2]
    exact foldl_restore_lookup job.print_job_spools spools e he hnd w hw
  · intro spools job store' sid g w hc hemp hsid hg hpos hw h
    unfold delete_print_job at h
    rw [if_neg (by simp)] at h
    rw [if_pos (by simp [hc])] at h
    rw [if_neg (by simp [hemp])] at h
    rw [hsid, hg] at h
    dsimp only at h
    rw [if_pos (by simpa using hpos)] at h
    rw [hw] at h
    injection h with h2
    rw [← h2]
    exact lookupStore_setStore_self spools sid _ _ hw
  · intro spools sid g w force store₁ job store₂ hw hpos hle hcreate hdelete
    unfold create_single_spool_print_job at hcreate
    rw [hw] at hcreate
    dsimp only at hcreate
    rw [if_pos (by simp [hpos])] at hcreate
    have hkey : store₁ = setStore spools sid (deduct_spool w g (preventOf settings)) ∧
        job = { status := "completed", spool_id := some sid, filament_used_g := some g } := by
      split at hcreate
      · exact Except.noConfusion hcreate
      · injection hcreate with h2
        exact ⟨(congrArg Prod.fst h2).symm, (congrArg Prod.snd h2).symm⟩
    obtain ⟨hst1, hjob⟩ := hkey
    subst hst1
    subst hjob
    unfold delete_print_job at hdelete
    rw [if_neg (by simp)] at hdelete
    rw [if_pos (by simp)] at hdelete
    rw [if_neg (by simp)] at hdelete
    have hl1 : lookupStore (setStore spools sid (deduct_spool w g (preventOf settings))) sid =
        some (deduct_spool w g (preventOf settings)) :=
      lookupStore_setStore_self spools sid _ _ hw
    dsimp only at hdelete
    rw [if_pos (by simpa using hpos)] at hdelete
    rw [hl1] at hdelete
    injection hdelete with h2
    rw [← h2]
    have hsum : deduct_spool w g (preventOf settings) + g = w := by
      unfold deduct_spool
      cases hp : preventOf settings with
      | true =>
        rw [if_pos rfl]
        have : max 0 (w - g) = w - g := max_eq_right (by linarith [hle hp])
        rw [this]
        ring
      | false =>
        rw [if_neg (by simp)]
        ring
    have hfin : lookupStore
        (setStore (setStore spools sid (deduct_spool w g (preventOf settings))) sid
          (deduct_spool w g (preventOf settings) + g)) sid =
        some (deduct_spool w g (preventOf settings) + g) :=
      lookupStore_setStore_self _ sid _ _ hl1
    rw [hfin, hsum]

/-- C4 witness: a completed 4 g job on a spool holding 10 g (default
settings, prevention enabled) deducts to 6 g, and deleting it restores
the spool to exactly 10 g. -/
theorem C4_witness : lookupStore [(1, (10 : ℚ))] 1 = some 10 :=
  (C4_delete_restores_allocations (some {})).2.2 [(1, (10 : ℚ))] 1 4 10 false
    [(1, (6 : ℚ))] { status := "completed", spool_id := some 1, filament_used_g := some 4 }
    [(1, (10 : ℚ))] rfl (by norm_num) (fun _ => by norm_num)
    (by norm_num [create_single_spool_print_job, validate_spool_inventory, reserveOf, preventOf,
      lookupStore, setStore, resulting_check, usable_weight, deduct_spool,
      List.filterMap_cons, List.filterMap_nil])
    (by norm_num [delete_print_job, lookupStore, setStore])

/-- Evaluation of the restoration loop on a single inventory line. -/
theorem restore_order_hardware_singleton (hw : Store ℤ) (hid : Nat) (q T : ℤ)
    (h : lookupStore hw hid = some T) :
    restore_order_hardware hw [⟨some hid, q, false⟩] = setStore hw hid (T + q) := by
  simp [restore_order_hardware, h]

/-- Evaluation of the deduction loop on a single inventory line: 400 when
the stock is below the quantity, else the subtracted store. -/
theorem deduct_order_hardware_singleton (hw : Store ℤ) (hid : Nat) (q T : ℤ)
    (h : lookupStore hw hid = some T) :
    deduct_order_hardware hw [⟨some hid, q, false⟩] =
      if T < q then .error .insufficientStock else .ok (setStore hw hid (T - q)) := by
  simp only [deduct_order_hardware]
  simp [h]

/-- C5: on an order update of a single-line order, hardware stock is
deducted exactly when `needs_deduct` holds (new status "finished" and
either the old status was not "finished" or the lines were replaced) and
restored exactly when `needs_restore` holds (old "finished", new not
"finished", lines not replaced); replacing the lines by the same content
while staying "finished" restores then re-deducts, leaving the stock
net unchanged, and updating finished→printed→finished with no hardware
change also leaves it net unchanged. -/
theorem C5_order_update_stock_effects (hid : Nat) (S q : ℤ) (old new : String) :
    ((update_order [(hid, S)] { status := old, order_hardware := [⟨some hid, q, false⟩] }
        { status := some new }).toOption.map (fun r => lookupStore r.1 hid) =
      (if needs_deduct old new false then (if S < q then none else some (some (S - q)))
       else if needs_restore old new false then some (some (S + q))
       else some (some S))) ∧
    ((update_order [(hid, S)] { status := "finished", order_hardware := [⟨some hid, q, false⟩] }
        { status := some "finished",
          hardware_items := some [{ hardware_item_id := some hid, quantity := q }] }).toOption.map
        (fun r => lookupStore r.1 hid) =
      (if S < 0 then none else some (some S))) ∧
    (((update_order [(hid, S)] { status := "finished", order_hardware := [⟨some hid, q, false⟩] }
        { status := some "printed" }).bind (fun r =>
          update_order r.1 r.2 { status := some "finished" })).toOption.map
        (fun r => lookupStore r.1 hid) =
      (if S < 0 then none else some (some S))) := by
  have hlookS : lookupStore [(hid, S)] hid = some S := by simp [lookupStore]
  have hlookSq : lookupStore [(hid, S + q)] hid = some (S + q) := by simp [lookupStore]
  have hsetS : ∀ v : ℤ, setStore [(hid, S)] hid v = [(hid, v)] := fun v => by simp [setStore]
  have hsetSq : ∀ v : ℤ, setStore [(hid, S + q)] hid v = [(hid, v)] := fun v => by
    simp [setStore]
  refine ⟨?_, ?_, ?_⟩
  · unfold update_order
    dsimp only
    simp only [Option.isSome_none]
    by_cases hded : needs_deduct old new false = true
    · rw [if_pos hded, if_pos hded]
      rw [deduct_order_hardware_singleton [(hid, S)] hid q S hlookS]
      by_cases hS : S < q
      · rw [if_pos hS, if_pos hS]
        rfl
      · rw [if_neg hS, if_neg hS, hsetS]
        simp [Except.toOption, lookupStore]
    · rw [if_neg hded, if_neg hded]
      by_cases hres : needs_restore old new false = true
      · rw [if_pos hres, if_pos hres]
        rw [restore_order_hardware_singleton [(hid, S)] hid q S hlookS, hsetS]
        simp [Except.toOption, lookupStore]
      · rw [if_neg hres, if_neg hres]
        simp [Except.toOption, lookupStore]
  · unfold update_order
    dsimp only
    simp only [Option.isSome_some]
    rw [if_pos (show (("finished" == "finished") = true) from rfl)]
    rw [restore_order_hardware_singleton [(hid, S)] hid q S hlookS, hsetS]
    rw [if_neg (show ¬(someHardwareMissing [(hid, S + q)]
        [{ hardware_item_id := some hid, quantity := q }] = true) from by
      simp [someHardwareMissing, lookupStore])]
    dsimp only
    rw [if_pos (show needs_deduct "finished" "finished" true = true from rfl)]
    have hmap : List.map toOrderHardware
        [({ hardware_item_id := some hid, quantity := q } : OrderHardwareInput)] =
        [(⟨some hid, q, false⟩ : OrderHardware)] := rfl
    rw [hmap]
    rw [deduct_order_hardware_singleton [(hid, S + q)] hid q (S + q) hlookSq]
    by_cases hS : S < 0
    · rw [if_pos (show S + q < q by omega), if_pos hS]
      rfl
    · rw [if_neg (show ¬(S + q < q) by omega), if_neg hS, hsetSq]
      simp [Except.toOption, lookupStore, Int.add_sub_cancel]
  · have hstep1 : update_order [(hid, S)]
        { status := "finished", order_hardware := [⟨some hid, q, false⟩] }
        { status := some "printed" } =
        .ok ([(hid, S + q)],
          { status := "printed", order_hardware := [⟨some hid, q, false⟩] }) := by
      unfold update_order
      dsimp only
      simp only [Option.isSome_none]
      rw [if_neg (show ¬(needs_deduct "finished" "printed" false = true) from by decide)]
      rw [if_pos (show needs_restore "finished" "printed" false = true from rfl)]
      rw [restore_order_hardware_singleton [(hid, S)] hid q S hlookS, hsetS]
    rw [hstep1]
    have hstep2 : (Except.ok ([(hid, S + q)],
        ({ status := "printed", order_hardware := [⟨some hid, q, false⟩] } : Order))).bind
        (fun r => update_order r.1 r.2 { status := some "finished" }) =
        update_order [(hid, S + q)]
          { status := "printed", order_hardware := [⟨some hid, q, false⟩] }
          { status := some "finished" } := rfl
    rw [hstep2]
    unfold update_order
    dsimp only
    simp only [Option.isSome_none]
    rw [if_pos (show needs_deduct "printed" "finished" false = true from rfl)]
    rw [deduct_order_hardware_singleton [(hid, S + q)] hid q (S + q) hlookSq]
    by_cases hS : S < 0
    · rw [if_pos (show S + q < q by omega), if_pos hS]
      rfl
    · rw [if_neg (show ¬(S + q < q) by omega), if_neg hS, hsetSq]
      simp [Except.toOption, lookupStore, Int.add_sub_cancel]

/-- C6: a ProductOnHand's project hardware is deducted only on a
printed→completed update — creation (whether as "printed" or directly as
"completed") never touches stock, an update that is not that transition
never touches stock, the transition with sufficient stock deducts each
requirement exactly once, and the transition with insufficient stock
(project needs 3, stock 2) is rejected with the shortage error, so
nothing is committed. -/
theorem C6_product_hardware_deduction (hw : Store ℤ) (printJobs : Store PrintJob)
    (projects : Store (List ProjectHardwareLine)) (product : ProductOnHand)
    (pid : Option Nat) (pjid : Nat) (cstatus : String) (loc : Option String)
    (dstatus : Option String) :
    (∀ st' prod, create_product_on_hand hw printJobs projects pid pjid cstatus loc =
        .ok (st', prod) → st' = hw) ∧
    (∀ st' p', update_product_on_hand hw projects product dstatus = .ok (st', p') →
      ¬(product.status = "printed" ∧ dstatus = some "completed") → st' = hw) ∧
    (∀ ppid phid n T, product.status = "printed" → dstatus = some "completed" →
      product.project_id = some ppid →
      lookupStore projects ppid = some [⟨phid, n⟩] → lookupStore hw phid = some T → n ≤ T →
      update_product_on_hand hw projects product dstatus =
        .ok (setStore hw phid (T - n), { product with status := "completed" })) ∧
    (update_product_on_hand [(7, (2 : ℤ))] [(4, [⟨7, 3⟩])]
        { status := "printed", project_id := some 4, print_job_id := 1 } (some "completed") =
      .error .insufficientStock) := by
  refine ⟨?_, ?_, ?_, ?_⟩
  · intro st' prod h
    unfold create_product_on_hand at h
    have hfin : ∀ hh, finish_create_product hw hh pid pjid cstatus loc = .ok (st', prod) →
        st' = hw := by
      intro hh hf
      unfold finish_create_product at hf
      dsimp only at hf
      repeat' split at hf
      all_goals first
        | exact Except.noConfusion hf
        | (injection hf with h2; exact (congrArg Prod.fst h2).symm)
    repeat' split at h
    all_goals first
      | exact Except.noConfusion h
      | exact hfin _ h
  · intro st' p' h hnot
    unfold update_product_on_hand at h
    dsimp only at h
    split at h
    · exfalso
      rename_i hcond
      have hb := (Bool.and_eq_true _ _).mp hcond
      have hwp : product.status = "printed" := by
        have := (Bool.and_eq_true _ _).mp hb.1
        exact beq_iff_eq.mp this.1
      have hwbc := ((Bool.and_eq_true _ _).mp hb.1).2
      cases hd : dstatus with
      | none =>
        rw [hd] at hwbc
        dsimp only at hwbc
        rw [hwp] at hwbc
        exact Bool.noConfusion (by exact hwbc)
      | some s =>
        rw [hd] at hwbc
        dsimp only at hwbc
        have hs : s = "completed" := beq_iff_eq.mp hwbc
        exact hnot ⟨hwp, by rw [hd, hs]⟩
    · repeat' split at h
      all_goals first
        | exact Except.noConfusion h
        | (injection h with h2; exact (congrArg Prod.fst h2).symm)
  · intro ppid phid n T hp hd hpp hproj hT hle
    unfold update_product_on_hand
    rw [hp, hd, hpp]
    dsimp only
    rw [if_pos (by rfl)]
    rw [hproj]
    dsimp only [Option.getD]
    rw [if_neg (by simp)]
    rw [if_neg (show ¬(([(⟨phid, n⟩ : ProjectHardwareLine)].any fun ph =>
        match lookupStore hw ph.hardware_item_id with
        | some q => decide (q < ph.quantity)
        | none => false) = true) from by
      simp only [List.any_cons, List.any_nil, Bool.or_false]
      dsimp only
      rw [hT]
      simpa using by omega)]
    dsimp only [List.foldl_cons, List.foldl_nil]
    rw [hT]
  · rfl

/-- C6 witness: creation of a completed product without hardware leaves
stock unchanged; a completed→completed update leaves stock unchanged;
and a printed→completed transition needing 3 of an item with stock 5
deducts it to 2. -/
theorem C6_witness :
    (([(7, (2 : ℤ))] : Store ℤ) = [(7, (2 : ℤ))]) ∧
    (([(8, (4 : ℤ))] : Store ℤ) = [(8, (4 : ℤ))]) ∧
    (update_product_on_hand [(7, (5 : ℤ))] [(4, [⟨7, 3⟩])]
        { status := "printed", project_id := some 4, print_job_id := 1 } (some "completed") =
      .ok (setStore [(7, (5 : ℤ))] 7 (5 - 3),
        { status := "completed", project_id := some 4, print_job_id := 1 })) :=
  ⟨(C6_product_hardware_deduction [(7, (2 : ℤ))] [(1, { status := "completed" })] []
      { status := "printed", print_job_id := 1 } none 1 "completed" (some "shelf") none).1
      [(7, (2 : ℤ))]
      { status := "completed", print_job_id := 1, location := some "shelf" } (by rfl),
   (C6_product_hardware_deduction [(8, (4 : ℤ))] [] []
      { status := "completed", project_id := some 4, print_job_id := 1 } none 1 "x" none
      (some "completed")).2.1 [(8, (4 : ℤ))]
      { status := "completed", project_id := some 4, print_job_id := 1 } (by rfl)
      (by simp),
   (C6_product_hardware_deduction [(7, (5 : ℤ))] [] [(4, [⟨7, 3⟩])]
      { status := "printed", project_id := some 4, print_job_id := 1 } none 1 "x" none
      (some "completed")).2.2.1 4 7 3 5 rfl rfl rfl rfl rfl (by omega)⟩

/-- C7: converting a product whose linked print job already has an order
fails with Conflict (nothing created, the product not deleted); a
successful conversion yields a "sold" order carrying the project's
hardware as snapshot lines, with stock deducted exactly when the
product's current status is not "completed" — a product already
"completed" (whose transition deducted the hardware before) is never
deducted a second time. -/
theorem C7_convert_product_guards (hw : Store ℤ) (printJobs : Store PrintJob)
    (projects : Store (List ProjectHardwareLine)) (product : ProductOnHand) :
    (∀ pj oid, lookupStore printJobs product.print_job_id = some pj →
      pj.order_id = some oid →
      convert_to_order hw printJobs projects product = .error .conflict) ∧
    (∀ st' order, convert_to_order hw printJobs projects product = .ok (st', order) →
      order.status = "sold" ∧
      order.order_hardware =
        (match product.project_id with
          | some pid => (lookupStore projects pid).getD []
          | none => []).map (fun (ph : ProjectHardwareLine) =>
            ({ hardware_item_id := some ph.hardware_item_id, quantity := ph.quantity,
               is_one_off := false } : OrderHardware)) ∧
      (product.status = "completed" → st' = hw)) ∧
    (∀ pj pid phid n T, lookupStore printJobs product.print_job_id = some pj →
      pj.order_id = none → product.project_id = some pid →
      product.status ≠ "completed" →
      lookupStore projects pid = some [⟨phid, n⟩] → lookupStore hw phid = some T → n ≤ T →
      convert_to_order hw printJobs projects product =
        .ok (setStore hw phid (T - n),
          { status := "sold", order_hardware := [⟨some phid, n, false⟩] })) := by
  refine ⟨?_, ?_, ?_⟩
  · intro pj oid hpj hoid
    unfold convert_to_order
    rw [hpj]
    dsimp only
    rw [hoid]
    rfl
  · intro st' order h
    unfold convert_to_order at h
    split at h
    · exact Except.noConfusion h
    · dsimp only at h
      split at h
      · exact Except.noConfusion h
      · split at h
        · injection h with h2
          injection h2 with ha hb
          subst hb
          exact ⟨rfl, rfl, fun _ => ha.symm⟩
        · split at h
          · split at h
            · exact Except.noConfusion h
            · rename_i hnc _
              injection h with h2
              injection h2 with ha hb
              subst hb
              exact ⟨rfl, rfl, fun hc => absurd hc (by simpa using hnc)⟩
          · injection h with h2
            injection h2 with ha hb
            subst hb
            exact ⟨rfl, rfl, fun _ => ha.symm⟩
  · intro pj pid phid n T hpj hoid hpid hst hproj hT hle
    unfold convert_to_order
    rw [hpj]
    dsimp only
    rw [hoid]
    dsimp only [Option.isSome_none]
    rw [if_neg (by simp)]
    rw [hpid]
    dsimp only
    rw [hproj]
    dsimp only [Option.getD]
    rw [if_neg (by simp)]
    rw [if_pos (by simpa using hst)]
    rw [if_neg (show ¬(([(⟨phid, n⟩ : ProjectHardwareLine)].any fun ph =>
        match lookupStore hw ph.hardware_item_id with
        | some q => decide (q < ph.quantity)
        | none => false) = true) from by
      simp only [List.any_cons, List.any_nil, Bool.or_false]
      dsimp only
      rw [hT]
      simpa using by omega)]
    dsimp only [List.foldl_cons, List.foldl_nil, List.map_cons, List.map_nil]
    rw [hT]

/-- C7 witness: an already-linked print job yields Conflict; converting a
product with no project yields a "sold" order with stock untouched; and
converting a not-yet-completed product needing 3 of an item with stock 5
deducts it. -/
theorem C7_witness :
    (convert_to_order [(7, (2 : ℤ))]
        [(1, { status := "completed", order_id := some 9 })] []
        { status := "completed", print_job_id := 1 } = .error .conflict) ∧
    (({ status := "sold", order_hardware := [] } : Order).status = "sold") ∧
    (convert_to_order [(7, (5 : ℤ))] [(1, { status := "completed" })] [(4, [⟨7, 3⟩])]
        { status := "printed", project_id := some 4, print_job_id := 1 } =
      .ok (setStore [(7, (5 : ℤ))] 7 (5 - 3),
        { status := "sold", order_hardware := [⟨some 7, 3, false⟩] })) :=
  ⟨(C7_convert_product_guards [(7, (2 : ℤ))]
      [(1, { status := "completed", order_id := some 9 })] []
      { status := "completed", print_job_id := 1 }).1
      { status := "completed", order_id := some 9 } 9 rfl rfl,
   ((C7_convert_product_guards [(7, (2 : ℤ))] [(1, { status := "completed" })] []
      { status := "completed", print_job_id := 1 }).2.1 [(7, (2 : ℤ))]
      { status := "sold", order_hardware := [] } (by rfl)).1,
   (C7_convert_product_guards [(7, (5 : ℤ))] [(1, { status := "completed" })] [(4, [⟨7, 3⟩])]
      { status := "printed", project_id := some 4, print_job_id := 1 }).2.2
      { status := "completed" } 4 7 3 5 rfl rfl rfl (by decide) rfl rfl (by omega)⟩

end SpoolSense
